import Mathlib

/-!
Verification of the E2B session manager (src/lib/e2b/session-manager.ts).

The session manager keeps a map from chat-session ids to cache entries, each
holding a live remote sandbox handle plus usage metadata.  We embed the store
as an association list with unique keys (the JS Map), timestamps as natural
numbers of milliseconds, and the two external provider calls (sandbox
creation and code execution) as explicit outcome parameters, so that every
method of the class becomes a total Lean function on the store state.
Remote-release requests (sandbox.kill) are made observable as a list of
sandbox ids returned by each operation.
-/

namespace E2B

/-- Timeout constants from the source: 30 minutes idle, 60 minutes lifetime,
in milliseconds. -/
def SESSION_IDLE_TIMEOUT : Int := 30 * 60 * 1000

/-- Maximum total lifetime of a cached session, one hour in milliseconds. -/
def SESSION_MAX_LIFETIME : Int := 60 * 60 * 1000

/-- One cache entry: the sandbox handle is represented by its numeric
identity; timestamps are milliseconds since some epoch. -/
structure SandboxCacheEntry where
  sandboxId : Nat
  createdAt : Nat
  lastUsedAt : Nat
  executionCount : Nat
deriving DecidableEq, Repr

/-- Shorthand constructor for concrete cache entries. -/
def mkEntry (sandboxId createdAt lastUsedAt executionCount : Nat) : SandboxCacheEntry :=
  ⟨sandboxId, createdAt, lastUsedAt, executionCount⟩

/-- The session store: the JS Map from chat-session id to cache entry,
embedded as an association list with unique keys. -/
abbrev Store := List (String × SandboxCacheEntry)

/-- Map.get: first entry with the given key. -/
def findEntry : Store → String → Option SandboxCacheEntry
  | [], _ => none
  | (k, e) :: rest, sid => if k = sid then some e else findEntry rest sid

/-- Map.delete: remove the entry with the given key. -/
def eraseEntry (s : Store) (sid : String) : Store :=
  s.filter (fun p => p.1 ≠ sid)

/-- Map.set: bind the key to the new entry, replacing any previous binding. -/
def setEntry (s : Store) (sid : String) (e : SandboxCacheEntry) : Store :=
  eraseEntry s sid ++ [(sid, e)]

/-- isSessionValid from the source: an entry is valid when neither the idle
time nor the total lifetime has exceeded its bound. -/
def isSessionValid (entry : SandboxCacheEntry) (now : Nat) : Bool :=
  let idleTime : Int := (now : Int) - (entry.lastUsedAt : Int)
  let lifetime : Int := (now : Int) - (entry.createdAt : Int)
  if idleTime > SESSION_IDLE_TIMEOUT then false
  else if lifetime > SESSION_MAX_LIFETIME then false
  else true

/-- Outcome of the provider call Sandbox.create: either a fresh sandbox id,
or a thrown error carrying a message. -/
inductive CreateOutcome where
  | ok (sandboxId : Nat)
  | fail (msg : String)
deriving DecidableEq, Repr

/-- Result of one getOrCreateSandbox call: the resolved sandbox id or the
thrown error message, the store after the call, whether Sandbox.create was
invoked, and the sandbox ids whose remote release (kill) was requested
during the call. -/
structure ResolveOut where
  result : Except String Nat
  store : Store
  createRequested : Bool
  killed : List Nat
deriving Repr

/-- The creation branch of getOrCreateSandbox: on success insert a fresh
entry with executionCount 1; on failure rethrow a single descriptive error
and leave the store untouched.  No kill is ever requested on this path. -/
def createNewSandbox (store : Store) (sid : String) (now : Nat)
    (create : CreateOutcome) : ResolveOut :=
  match create with
  | .ok id =>
      { result := .ok id
        store := setEntry store sid
          { sandboxId := id, createdAt := now, lastUsedAt := now, executionCount := 1 }
        createRequested := true
        killed := [] }
  | .fail msg =>
      { result := .error ("Failed to create E2B sandbox: " ++ msg)
        store := store
        createRequested := true
        killed := [] }

/-- getOrCreateSandbox from the source: reuse a valid cached entry (bumping
lastUsedAt and executionCount), otherwise create a new sandbox and insert a
fresh entry over the same key. -/
def getOrCreateSandbox (store : Store) (sid : String) (now : Nat)
    (create : CreateOutcome) : ResolveOut :=
  match findEntry store sid with
  | some cached =>
      if isSessionValid cached now then
        { result := .ok cached.sandboxId
          store := setEntry store sid
            { cached with lastUsedAt := now, executionCount := cached.executionCount + 1 }
          createRequested := false
          killed := [] }
      else
        createNewSandbox store sid now create
  | none => createNewSandbox store sid now create

/-- Result of one terminateSandbox call: the store afterwards and the
sandbox ids whose remote release was requested. -/
structure TerminateOut where
  store : Store
  killed : List Nat
deriving DecidableEq, Repr

/-- terminateSandbox from the source: a no-op when no entry exists; when one
exists, its kill is requested and the entry is deleted from the map whether
the kill succeeds (killOk = true) or throws (killOk = false). -/
def terminateSandbox (store : Store) (sid : String) (killOk : Bool) : TerminateOut :=
  match findEntry store sid with
  | none => { store := store, killed := [] }
  | some entry =>
      match killOk with
      | true => { store := eraseEntry store sid, killed := [entry.sandboxId] }
      | false => { store := eraseEntry store sid, killed := [entry.sandboxId] }

/-- Executable embedding of String.prototype.trim: drop whitespace from both
ends of the character sequence. -/
def trimString (s : String) : String :=
  String.mk (((s.data.dropWhile Char.isWhitespace).reverse.dropWhile Char.isWhitespace).reverse)

/-- JS truthiness of an optional string field: an absent field and the empty
string are both falsy. -/
def truthyStr : Option String → Bool
  | none => false
  | some s => s != ""

/-- An interpreter-level execution error reported by the provider; the three
fields are optional in the sense of JS truthiness. -/
structure ExecutionError where
  name : Option String
  value : Option String
  traceback : Option String
deriving DecidableEq, Repr

/-- formatError from the source: push each truthy field in order and join the
parts with newlines. -/
def formatError (error : ExecutionError) : String :=
  let errorParts : List String := []
  let errorParts := if truthyStr error.name then errorParts ++ [error.name.getD ""] else errorParts
  let errorParts := if truthyStr error.value then errorParts ++ [error.value.getD ""] else errorParts
  let errorParts := if truthyStr error.traceback then errorParts ++ [error.traceback.getD ""] else errorParts
  String.intercalate "\n" errorParts

/-- One structured result of an execution, carrying optional png and jpeg
payloads (base64 strings). -/
structure RunResultData where
  png : Option String
  jpeg : Option String
deriving DecidableEq, Repr

/-- Image formats recognised by the executor. -/
inductive ImageFormat where
  | png
  | jpeg
deriving DecidableEq, Repr

/-- One entry of the images field of an ExecutionResult. -/
structure ImageEntry where
  format : ImageFormat
  base64 : String
deriving DecidableEq, Repr

/-- The image-extraction loop of executeCode: for each result push a png
entry when the png payload is truthy, otherwise a jpeg entry when the jpeg
payload is truthy, otherwise nothing. -/
def extractImages (results : List RunResultData) : List ImageEntry :=
  results.foldl
    (fun images result =>
      if truthyStr result.png then images ++ [{ format := .png, base64 := result.png.getD "" }]
      else if truthyStr result.jpeg then images ++ [{ format := .jpeg, base64 := result.jpeg.getD "" }]
      else images)
    []

/-- The data of a completed provider execution: stdout and stderr log lines,
structured results, and an optional interpreter-level error. -/
structure Execution where
  stdoutLogs : List String
  stderrLogs : List String
  results : List RunResultData
  error : Option ExecutionError
deriving DecidableEq, Repr

/-- Outcome of the provider call sandbox.runCode: either a completed
execution, or a thrown error (for example a provider timeout) carrying a
message. -/
inductive RunOutcome where
  | ok (e : Execution)
  | raise (msg : String)
deriving DecidableEq, Repr

/-- The ExecutionResult returned to the caller of executeCode. -/
structure ExecutionResult where
  stdout : String
  images : List ImageEntry
  error : Option String
  executionTimeMs : Int
deriving DecidableEq, Repr

/-- executeCode from the source: resolve the sandbox, run the code, and
normalise the outcome.  Every thrown error (sandbox creation failure or a
raise from runCode) is caught and turned into a result whose error field is
the message; executionTimeMs is attached on every path. -/
def executeCode (store : Store) (sid : String) (startTime endTime : Nat)
    (create : CreateOutcome) (run : RunOutcome) : ExecutionResult × Store :=
  let resolved := getOrCreateSandbox store sid startTime create
  match resolved.result with
  | .error msg =>
      ({ stdout := ""
         images := []
         error := some msg
         executionTimeMs := (endTime : Int) - (startTime : Int) }, resolved.store)
  | .ok _ =>
      match run with
      | .raise msg =>
          ({ stdout := ""
             images := []
             error := some msg
             executionTimeMs := (endTime : Int) - (startTime : Int) }, resolved.store)
      | .ok ex =>
          let stdout := String.intercalate "\n" ex.stdoutLogs
            ++ String.intercalate "\n" ex.stderrLogs
          ({ stdout := trimString stdout
             images := extractImages ex.results
             error := ex.error.map formatError
             executionTimeMs := (endTime : Int) - (startTime : Int) }, resolved.store)

/-- getCacheStats from the source: one pass over all entries accumulating
the execution-count sum and the number of currently valid entries. -/
structure CacheStats where
  totalSessions : Nat
  activeSessions : Nat
  totalExecutions : Nat
deriving DecidableEq, Repr

/-- getCacheStats from the source, with the loop rendered as a fold over the
entries of the map. -/
def getCacheStats (store : Store) (now : Nat) : CacheStats :=
  let acc := store.foldl
    (fun (acc : Nat × Nat) p =>
      (acc.1 + p.2.executionCount, if isSessionValid p.2 now then acc.2 + 1 else acc.2))
    (0, 0)
  { totalSessions := store.length
    activeSessions := acc.2
    totalExecutions := acc.1 }

/-- The part of getOrCreateSandbox executed before the suspension point at
the awaited Sandbox.create call: read the cache and either resolve a valid
entry (mutating its metadata) or report that a creation is needed.  Used to
reason about interleavings of two concurrent calls. -/
def resolveCheckCache (store : Store) (sid : String) (now : Nat) :
    Option Nat × Store :=
  match findEntry store sid with
  | some cached =>
      if isSessionValid cached now then
        (some cached.sandboxId,
         setEntry store sid
           { cached with lastUsedAt := now, executionCount := cached.executionCount + 1 })
      else (none, store)
  | none => (none, store)

/-- The part of getOrCreateSandbox executed after Sandbox.create resumes:
insert the fresh entry over the key. -/
def resolveInsert (store : Store) (sid : String) (now : Nat) (newId : Nat) : Store :=
  setEntry store sid
    { sandboxId := newId, createdAt := now, lastUsedAt := now, executionCount := 1 }

/-- Spec-side rendering of one optional error field: a field participates
exactly when it is present and non-empty. -/
def presentField : Option String → Option String
  | none => none
  | some s => if s != "" then some s else none

/-- Spec-side formatting contract: the formatted error is the newline join
of the present fields, in the order name, value, traceback, with absent
fields omitted entirely. -/
def formatErrorSpec (e : ExecutionError) : String :=
  String.intercalate "\n" ([e.name, e.value, e.traceback].filterMap presentField)

/-- Spec-side classification of one artifact: png when a png payload is
carried (png takes precedence), else jpeg when a jpeg payload is carried,
else no image. -/
def classifyArtifact (r : RunResultData) : Option ImageEntry :=
  if truthyStr r.png then some { format := .png, base64 := r.png.getD "" }
  else if truthyStr r.jpeg then some { format := .jpeg, base64 := r.jpeg.getD "" }
  else none

/-! ### Store lemmas -/

theorem findEntry_append (l₁ l₂ : Store) (sid : String) :
    findEntry (l₁ ++ l₂) sid =
      match findEntry l₁ sid with
      | some e => some e
      | none => findEntry l₂ sid := by
  induction l₁ with
  | nil => simp [findEntry]
  | cons p rest ih =>
      obtain ⟨k, e⟩ := p
      by_cases h : k = sid <;> simp [findEntry, h, ih]

theorem findEntry_eraseEntry (s : Store) (sid sid' : String) :
    findEntry (eraseEntry s sid) sid' =
      if sid' = sid then none else findEntry s sid' := by
  induction s with
  | nil => simp [findEntry, eraseEntry]
  | cons p rest ih =>
      obtain ⟨k, e⟩ := p
      by_cases hk : k = sid
      · have h1 : eraseEntry ((k, e) :: rest) sid = eraseEntry rest sid := by
          simp [eraseEntry, List.filter_cons, hk]
        rw [h1, ih]
        by_cases h' : sid' = sid
        · simp [h']
        · have hk' : ¬ (k = sid') := by
            rw [hk]
            exact fun hcontra => h' hcontra.symm
          simp [findEntry, h', hk']
      · have h1 : eraseEntry ((k, e) :: rest) sid = (k, e) :: eraseEntry rest sid := by
          simp [eraseEntry, List.filter_cons, hk]
        rw [h1]
        by_cases hk2 : k = sid'
        · have h' : ¬ (sid' = sid) := fun hc => hk (hk2.trans hc)
          simp [findEntry, hk2, h']
        · simp [findEntry, hk2, ih]

theorem findEntry_setEntry (s : Store) (sid sid' : String) (e : SandboxCacheEntry) :
    findEntry (setEntry s sid e) sid' =
      if sid' = sid then some e else findEntry s sid' := by
  unfold setEntry
  rw [findEntry_append, findEntry_eraseEntry]
  by_cases h : sid' = sid
  · simp [h, findEntry]
  · have h2 : ¬ (sid = sid') := fun hc => h hc.symm
    simp [h, findEntry, h2]
    cases findEntry s sid' <;> simp

/-- The keys of a store. -/
def keys (s : Store) : List String := s.map Prod.fst

/-- Sum of the executionCount fields over all entries, the spec-level view
of the totalExecutions statistic. -/
def sumExec (s : Store) : Nat := (s.map (fun p => p.2.executionCount)).sum

theorem getCacheStats_foldl (l : Store) (now : Nat) (a b : Nat) :
    l.foldl
        (fun (acc : Nat × Nat) p =>
          (acc.1 + p.2.executionCount, if isSessionValid p.2 now then acc.2 + 1 else acc.2))
        (a, b)
      = (a + sumExec l, b + (l.filter (fun p => isSessionValid p.2 now)).length) := by
  induction l generalizing a b with
  | nil => simp [sumExec]
  | cons p rest ih =>
      simp only [List.foldl_cons, List.filter_cons, sumExec, List.map_cons, List.sum_cons] at *
      rw [ih]
      by_cases h : isSessionValid p.2 now <;> simp [h, Prod.mk.injEq] <;> omega

theorem eraseEntry_cons_of_eq (k : String) (e : SandboxCacheEntry) (rest : Store) :
    eraseEntry ((k, e) :: rest) k = eraseEntry rest k := by
  simp [eraseEntry, List.filter_cons]

theorem eraseEntry_cons_of_ne (k sid : String) (e : SandboxCacheEntry) (rest : Store)
    (h : ¬ (k = sid)) :
    eraseEntry ((k, e) :: rest) sid = (k, e) :: eraseEntry rest sid := by
  simp [eraseEntry, List.filter_cons, h]

theorem findEntry_eq_none_iff (s : Store) (sid : String) :
    findEntry s sid = none ↔ sid ∉ keys s := by
  induction s with
  | nil => simp [findEntry, keys]
  | cons p rest ih =>
      obtain ⟨k, e⟩ := p
      simp only [findEntry, keys, List.map_cons, List.mem_cons]
      by_cases h : k = sid
      · subst h
        simp
      · rw [if_neg h, ih]
        unfold keys
        constructor
        · intro hn
          push_neg
          exact ⟨fun hc => h hc.symm, hn⟩
        · intro hn
          push_neg at hn
          exact hn.2

theorem eraseEntry_of_not_mem (s : Store) (sid : String) (h : sid ∉ keys s) :
    eraseEntry s sid = s := by
  induction s with
  | nil => rfl
  | cons p rest ih =>
      obtain ⟨k, e⟩ := p
      simp only [keys, List.map_cons, List.mem_cons] at h
      push_neg at h
      rw [eraseEntry_cons_of_ne k sid e rest (fun hc => h.1 hc.symm)]
      rw [ih (by simpa [keys] using h.2)]

theorem keys_eraseEntry_sublist (s : Store) (sid : String) :
    List.Sublist (keys (eraseEntry s sid)) (keys s) := by
  unfold keys eraseEntry
  exact List.Sublist.map Prod.fst (List.filter_sublist s)

theorem not_mem_keys_eraseEntry (s : Store) (sid : String) :
    sid ∉ keys (eraseEntry s sid) := by
  intro hm
  simp only [keys, eraseEntry, List.mem_map] at hm
  rcases hm with ⟨p, hp, hfst⟩
  have hkeep := (List.mem_filter.mp hp).2
  simp only [ne_eq, decide_not, decide_eq_true_eq, Bool.not_eq_eq_eq_not, Bool.not_true,
    decide_eq_false_iff_not] at hkeep
  exact hkeep hfst

/-- Whether the keys of a store are pairwise distinct; every store reachable
from the empty one satisfies this (the JS Map has unique keys). -/
def keysNodup (s : Store) : Prop := (keys s).Nodup

theorem keysNodup_eraseEntry (s : Store) (sid : String) (h : keysNodup s) :
    keysNodup (eraseEntry s sid) :=
  h.sublist (keys_eraseEntry_sublist s sid)

theorem keys_setEntry (s : Store) (sid : String) (e : SandboxCacheEntry) :
    keys (setEntry s sid e) = keys (eraseEntry s sid) ++ [sid] := by
  simp [keys, setEntry]

theorem keysNodup_setEntry (s : Store) (sid : String) (e : SandboxCacheEntry)
    (h : keysNodup s) : keysNodup (setEntry s sid e) := by
  unfold keysNodup
  rw [keys_setEntry]
  refine List.Nodup.append (keysNodup_eraseEntry s sid h) (List.nodup_singleton sid) ?_
  intro x hx hx'
  rw [List.mem_singleton] at hx'
  subst hx'
  exact not_mem_keys_eraseEntry s x hx

theorem mem_keys_setEntry (s : Store) (sid x : String) (e : SandboxCacheEntry) :
    x ∈ keys (setEntry s sid e) ↔ x ∈ keys s ∨ x = sid := by
  rw [keys_setEntry]
  simp only [List.mem_append, List.mem_singleton]
  constructor
  · rintro (hm | rfl)
    · exact Or.inl ((keys_eraseEntry_sublist s sid).mem hm)
    · exact Or.inr rfl
  · rintro (hm | rfl)
    · by_cases hx : x = sid
      · exact Or.inr hx
      · refine Or.inl ?_
        unfold keys eraseEntry
        rcases List.mem_map.mp hm with ⟨p, hp, rfl⟩
        exact List.mem_map.mpr ⟨p, List.mem_filter.mpr ⟨hp, by simpa using hx⟩, rfl⟩
    · exact Or.inr rfl

theorem sumExec_append (l₁ l₂ : Store) : sumExec (l₁ ++ l₂) = sumExec l₁ + sumExec l₂ := by
  simp [sumExec]

theorem sumExec_eraseEntry (s : Store) (sid : String) (e : SandboxCacheEntry)
    (hn : keysNodup s) (hf : findEntry s sid = some e) :
    sumExec s = sumExec (eraseEntry s sid) + e.executionCount := by
  induction s with
  | nil => simp [findEntry] at hf
  | cons p rest ih =>
      obtain ⟨k, x⟩ := p
      have hn' : k ∉ List.map Prod.fst rest ∧ (List.map Prod.fst rest).Nodup := by
        simpa [keysNodup, keys] using hn
      by_cases h : k = sid
      · subst h
        rw [findEntry, if_pos rfl] at hf
        injection hf with hf
        subst hf
        rw [eraseEntry_cons_of_eq,
          eraseEntry_of_not_mem rest k (by simpa [keys] using hn'.1)]
        simp [sumExec]
        omega
      · rw [findEntry, if_neg h] at hf
        rw [eraseEntry_cons_of_ne k sid x rest h]
        simp only [sumExec, List.map_cons, List.sum_cons]
        have hrec := ih (by simpa [keysNodup, keys] using hn'.2) hf
        simp only [sumExec] at hrec
        omega

theorem sumExec_setEntry (s : Store) (sid : String) (e : SandboxCacheEntry) :
    sumExec (setEntry s sid e) = sumExec (eraseEntry s sid) + e.executionCount := by
  unfold setEntry
  rw [sumExec_append]
  simp [sumExec]

/-- One successful execution request: the session id, the time of the call,
and the sandbox id the provider would hand out if a creation is needed. -/
structure ExecEvent where
  sid : String
  time : Nat
  newId : Nat
deriving DecidableEq, Repr

/-- The store after one successful getOrCreateSandbox call for the event. -/
def execStep (store : Store) (ev : ExecEvent) : Store :=
  (getOrCreateSandbox store ev.sid ev.time (.ok ev.newId)).store

/-- The store after a sequence of successful execution requests. -/
def runSteps : Store → List ExecEvent → Store
  | store, [] => store
  | store, ev :: rest => runSteps (execStep store ev) rest

/-- An event does not evict: at its time, any entry already present for its
session id is still valid, so the call reuses rather than replaces. -/
def noEvictionStep (store : Store) (ev : ExecEvent) : Bool :=
  match findEntry store ev.sid with
  | some e => isSessionValid e ev.time
  | none => true

/-- A whole sequence of events is eviction-free. -/
def noEvictions : Store → List ExecEvent → Bool
  | _, [] => true
  | store, ev :: rest => noEvictionStep store ev && noEvictions (execStep store ev) rest

theorem execStep_eq_setEntry (s : Store) (ev : ExecEvent) :
    ∃ e, execStep s ev = setEntry s ev.sid e := by
  unfold execStep getOrCreateSandbox createNewSandbox
  cases hf : findEntry s ev.sid with
  | none => exact ⟨_, rfl⟩
  | some c =>
      by_cases hv : isSessionValid c ev.time
      · simp only [hv, if_true]
        exact ⟨_, rfl⟩
      · simp only [hv, if_false, Bool.false_eq_true]
        exact ⟨_, rfl⟩

theorem keysNodup_execStep (s : Store) (ev : ExecEvent) (h : keysNodup s) :
    keysNodup (execStep s ev) := by
  rcases execStep_eq_setEntry s ev with ⟨e, he⟩
  rw [he]
  exact keysNodup_setEntry s ev.sid e h

theorem mem_keys_execStep (s : Store) (ev : ExecEvent) (x : String) :
    x ∈ keys (execStep s ev) ↔ x ∈ keys s ∨ x = ev.sid := by
  rcases execStep_eq_setEntry s ev with ⟨e, he⟩
  rw [he]
  exact mem_keys_setEntry s ev.sid x e

theorem sumExec_execStep (s : Store) (ev : ExecEvent) (hn : keysNodup s)
    (hs : noEvictionStep s ev = true) :
    sumExec (execStep s ev) = sumExec s + 1 := by
  unfold noEvictionStep at hs
  cases hf : findEntry s ev.sid with
  | none =>
      have herase : eraseEntry s ev.sid = s :=
        eraseEntry_of_not_mem s ev.sid ((findEntry_eq_none_iff s ev.sid).mp hf)
      simp only [execStep, getOrCreateSandbox, createNewSandbox, hf]
      rw [sumExec_setEntry, herase]
  | some c =>
      rw [hf] at hs
      have hs' : isSessionValid c ev.time = true := hs
      have hdecomp := sumExec_eraseEntry s ev.sid c hn hf
      simp only [execStep, getOrCreateSandbox, hf, hs', eq_self_iff_true, if_true]
      rw [sumExec_setEntry]
      simp only []
      omega

theorem keysNodup_runSteps (evs : List ExecEvent) (s : Store) (h : keysNodup s) :
    keysNodup (runSteps s evs) := by
  induction evs generalizing s with
  | nil => exact h
  | cons ev rest ih => exact ih _ (keysNodup_execStep s ev h)

theorem sumExec_runSteps (evs : List ExecEvent) (s : Store) (hn : keysNodup s)
    (he : noEvictions s evs = true) :
    sumExec (runSteps s evs) = sumExec s + evs.length := by
  induction evs generalizing s with
  | nil => simp [runSteps]
  | cons ev rest ih =>
      simp only [noEvictions, Bool.and_eq_true] at he
      rw [runSteps, ih (execStep s ev) (keysNodup_execStep s ev hn) he.2,
        sumExec_execStep s ev hn he.1, List.length_cons]
      omega

theorem mem_keys_runSteps (evs : List ExecEvent) (s : Store) (x : String) :
    x ∈ keys (runSteps s evs) ↔ x ∈ keys s ∨ x ∈ evs.map (fun e => e.sid) := by
  induction evs generalizing s with
  | nil => simp [runSteps]
  | cons ev rest ih =>
      rw [runSteps, ih, mem_keys_execStep]
      simp only [List.map_cons, List.mem_cons]
      tauto

theorem length_keys (s : Store) : (keys s).length = s.length := by
  simp [keys]

theorem keys_runSteps_length (evs : List ExecEvent) :
    (runSteps [] evs).length = ((evs.map (fun e => e.sid)).dedup).length := by
  have hnd : (keys (runSteps ([] : Store) evs)).Nodup :=
    keysNodup_runSteps evs [] (by simp [keysNodup, keys])
  have hperm : (keys (runSteps ([] : Store) evs)).Perm ((evs.map (fun e => e.sid)).dedup) := by
    rw [List.perm_ext_iff_of_nodup hnd (List.nodup_dedup _)]
    intro a
    rw [List.mem_dedup, mem_keys_runSteps]
    simp [keys]
  rw [← length_keys]
  exact hperm.length_eq

theorem getCacheStats_eq (store : Store) (now : Nat) :
    getCacheStats store now =
      { totalSessions := store.length
        activeSessions := (store.filter (fun p => isSessionValid p.2 now)).length
        totalExecutions := sumExec store } := by
  unfold getCacheStats
  rw [getCacheStats_foldl]
  simp

theorem extractImages_foldl (l : List RunResultData) (acc : List ImageEntry) :
    l.foldl
        (fun images result =>
          if truthyStr result.png then images ++ [{ format := .png, base64 := result.png.getD "" }]
          else if truthyStr result.jpeg then
            images ++ [{ format := .jpeg, base64 := result.jpeg.getD "" }]
          else images)
        acc
      = acc ++ l.filterMap classifyArtifact := by
  induction l generalizing acc with
  | nil => simp
  | cons r rest ih =>
      simp only [List.foldl_cons, List.filterMap_cons]
      by_cases hp : truthyStr r.png
      · have hc : classifyArtifact r = some { format := .png, base64 := r.png.getD "" } := by
          unfold classifyArtifact
          rw [if_pos hp]
        rw [if_pos hp, ih, hc]
        simp
      · rw [if_neg hp]
        by_cases hj : truthyStr r.jpeg
        · have hc : classifyArtifact r = some { format := .jpeg, base64 := r.jpeg.getD "" } := by
            unfold classifyArtifact
            rw [if_neg hp, if_pos hj]
          rw [if_pos hj, ih, hc]
          simp
        · have hc : classifyArtifact r = none := by
            unfold classifyArtifact
            rw [if_neg hp, if_neg hj]
          rw [if_neg hj, ih, hc]

/-- C8: for every interpreter-level error object with optional name, value
and traceback fields, formatError produces the newline join of exactly the
present (truthy) fields, in the order name, value, traceback, each on its
own line, with absent fields omitted entirely. -/
theorem formatError_ordered_fields (e : ExecutionError) :
    formatError e = formatErrorSpec e := by
  obtain ⟨n, v, t⟩ := e
  unfold formatError formatErrorSpec presentField truthyStr
  cases n <;> cases v <;> cases t <;>
    simp only [List.filterMap_cons, List.filterMap_nil] <;>
    split_ifs <;>
    simp_all

/-- C9: the images field contains one entry per structured result that
carries a truthy png or jpeg payload, in the original result order, with
png taking precedence over jpeg and payload-free results contributing
nothing: the extraction loop agrees with the order-preserving filterMap of
the spec-side classification. -/
theorem extractImages_classification (results : List RunResultData) :
    extractImages results = results.filterMap classifyArtifact := by
  unfold extractImages
  rw [extractImages_foldl]
  simp

/-- C10: on every successful execution the returned stdout equals the trim
of the stdout lines joined by newlines concatenated directly with the
stderr lines joined by newlines, with no separator between the two blocks,
so a non-empty stdout block and a non-empty stderr block fuse at the seam. -/
theorem executeCode_stdout_fusion (store : Store) (sid : String)
    (startTime endTime : Nat) (create : CreateOutcome) (ex : Execution) (sb : Nat)
    (hres : (getOrCreateSandbox store sid startTime create).result = Except.ok sb) :
    (executeCode store sid startTime endTime create (.ok ex)).1.stdout
      = trimString (String.intercalate "\n" ex.stdoutLogs
          ++ String.intercalate "\n" ex.stderrLogs) := by
  simp only [executeCode, hres]

/-- Witness for C10 at a concrete execution: stdout lines a, b and stderr
lines c, d fuse into three output lines with bc in the middle. -/
theorem executeCode_stdout_fusion_witness :
    (executeCode [] "s" 0 1 (.ok 1)
        (.ok { stdoutLogs := ["a", "b"], stderrLogs := ["c", "d"],
               results := [], error := none })).1.stdout
      = "a\nbc\nd" := by
  rw [executeCode_stdout_fusion [] "s" 0 1 (.ok 1)
    { stdoutLogs := ["a", "b"], stderrLogs := ["c", "d"], results := [], error := none }
    1 rfl]
  rfl

/-- C1: executeCode is total and captures every failure mode into the
result: executionTimeMs is the wall-clock difference on every path, a
sandbox-creation failure message becomes the error field, a raise from
runCode (for example a provider timeout) becomes the error field, and an
interpreter-level error is formatted into the error field. -/
theorem executeCode_never_raises (store : Store) (sid : String)
    (startTime endTime : Nat) (create : CreateOutcome) (run : RunOutcome) :
    ((executeCode store sid startTime endTime create run).1.executionTimeMs
        = (endTime : Int) - (startTime : Int)) ∧
    (∀ msg, (getOrCreateSandbox store sid startTime create).result = Except.error msg →
        (executeCode store sid startTime endTime create run).1.error = some msg) ∧
    (∀ sb msg, (getOrCreateSandbox store sid startTime create).result = Except.ok sb →
        run = .raise msg →
        (executeCode store sid startTime endTime create run).1.error = some msg) ∧
    (∀ sb ex err, (getOrCreateSandbox store sid startTime create).result = Except.ok sb →
        run = .ok ex → ex.error = some err →
        (executeCode store sid startTime endTime create run).1.error
          = some (formatError err)) := by
  refine ⟨?_, ?_, ?_, ?_⟩
  · cases hres : (getOrCreateSandbox store sid startTime create).result with
    | error msg => simp [executeCode, hres]
    | ok sb =>
        cases run with
        | raise msg => simp [executeCode, hres]
        | ok ex => simp [executeCode, hres]
  · intro msg hres
    simp [executeCode, hres]
  · intro sb msg hres hrun
    subst hrun
    simp [executeCode, hres]
  · intro sb ex err hres hrun herr
    subst hrun
    simp [executeCode, hres, herr]

/-- Witness for C1: a concrete runCode raise (provider timeout) is captured
into the error field, and executionTimeMs is populated. -/
theorem executeCode_never_raises_witness :
    (executeCode [] "s" 0 250 (.ok 1) (.raise "execution timed out")).1.error
        = some "execution timed out" ∧
    (executeCode [] "s" 0 250 (.ok 1) (.raise "execution timed out")).1.executionTimeMs
        = 250 := by
  have h := executeCode_never_raises [] "s" 0 250 (.ok 1) (.raise "execution timed out")
  exact ⟨h.2.2.1 1 "execution timed out" rfl rfl, h.1⟩

/-- C2: a call that finds a valid (neither idle-expired nor
lifetime-expired) entry returns the cached handle, sets lastUsedAt to now,
increments executionCount, changes no other key and requests no creation;
a call that finds no valid entry, given a successful provider creation,
requests a creation, returns the new handle and installs a fresh entry with
executionCount 1 over the same key, changing no other key. -/
theorem getOrCreateSandbox_resolve_spec (store : Store) (sid : String) (now : Nat)
    (create : CreateOutcome) :
    (∀ cached, findEntry store sid = some cached → isSessionValid cached now = true →
      (getOrCreateSandbox store sid now create).result = Except.ok cached.sandboxId ∧
      (getOrCreateSandbox store sid now create).createRequested = false ∧
      findEntry (getOrCreateSandbox store sid now create).store sid
        = some { cached with lastUsedAt := now, executionCount := cached.executionCount + 1 } ∧
      (∀ sid', sid' ≠ sid →
        findEntry (getOrCreateSandbox store sid now create).store sid'
          = findEntry store sid'))
    ∧
    (∀ id, create = CreateOutcome.ok id →
      (∀ cached, findEntry store sid = some cached → isSessionValid cached now = false) →
      (getOrCreateSandbox store sid now create).result = Except.ok id ∧
      (getOrCreateSandbox store sid now create).createRequested = true ∧
      findEntry (getOrCreateSandbox store sid now create).store sid
        = some { sandboxId := id, createdAt := now, lastUsedAt := now, executionCount := 1 } ∧
      (∀ sid', sid' ≠ sid →
        findEntry (getOrCreateSandbox store sid now create).store sid'
          = findEntry store sid')) := by
  constructor
  · intro cached hf hv
    refine ⟨?_, ?_, ?_, ?_⟩
    · simp [getOrCreateSandbox, hf, hv]
    · simp [getOrCreateSandbox, hf, hv]
    · simp only [getOrCreateSandbox, hf, hv, if_true]
      rw [findEntry_setEntry]
      simp
    · intro sid' hne
      simp only [getOrCreateSandbox, hf, hv, if_true]
      rw [findEntry_setEntry, if_neg hne]
  · intro id hc hmiss
    subst hc
    cases hf : findEntry store sid with
    | some cached =>
        have hv := hmiss cached hf
        refine ⟨?_, ?_, ?_, ?_⟩
        · simp [getOrCreateSandbox, hf, hv, createNewSandbox]
        · simp [getOrCreateSandbox, hf, hv, createNewSandbox]
        · simp only [getOrCreateSandbox, hf, hv, Bool.false_eq_true, if_false,
            createNewSandbox]
          rw [findEntry_setEntry]
          simp
        · intro sid' hne
          simp only [getOrCreateSandbox, hf, hv, Bool.false_eq_true, if_false,
            createNewSandbox]
          rw [findEntry_setEntry, if_neg hne]
    | none =>
        refine ⟨?_, ?_, ?_, ?_⟩
        · simp [getOrCreateSandbox, hf, createNewSandbox]
        · simp [getOrCreateSandbox, hf, createNewSandbox]
        · simp only [getOrCreateSandbox, hf, createNewSandbox]
          rw [findEntry_setEntry]
          simp
        · intro sid' hne
          simp only [getOrCreateSandbox, hf, createNewSandbox]
          rw [findEntry_setEntry, if_neg hne]

/-- Witness for C2: a valid entry at time 5 is reused with its counter
bumped and no creation requested; a brand-new session id gets a fresh entry
with executionCount 1 from the created sandbox. -/
theorem getOrCreateSandbox_resolve_spec_witness :
    ((getOrCreateSandbox [("s", mkEntry 1 0 0 1)] "s" 5 (.ok 99)).result = Except.ok 1 ∧
     (getOrCreateSandbox [("s", mkEntry 1 0 0 1)] "s" 5 (.ok 99)).createRequested = false ∧
     findEntry (getOrCreateSandbox [("s", mkEntry 1 0 0 1)] "s" 5 (.ok 99)).store "s"
       = some (mkEntry 1 0 5 2)) ∧
    ((getOrCreateSandbox [] "t" 5 (.ok 7)).result = Except.ok 7 ∧
     (getOrCreateSandbox [] "t" 5 (.ok 7)).createRequested = true ∧
     findEntry (getOrCreateSandbox [] "t" 5 (.ok 7)).store "t"
       = some (mkEntry 7 5 5 1)) := by
  have h1 := (getOrCreateSandbox_resolve_spec [("s", mkEntry 1 0 0 1)]
    "s" 5 (.ok 99)).1 (mkEntry 1 0 0 1) rfl (by decide)
  have h2 := (getOrCreateSandbox_resolve_spec [] "t" 5 (.ok 7)).2 7 rfl
    (by intro c hc; simp [findEntry] at hc)
  exact ⟨⟨h1.1, h1.2.1, h1.2.2.1⟩, ⟨h2.1, h2.2.1, h2.2.2.1⟩⟩

/-- C6: when the provider fails to create a sandbox, getOrCreateSandbox
rethrows a single descriptive error and the store is exactly the store
before the call: no partial entry is inserted. -/
theorem getOrCreateSandbox_createFail (store : Store) (sid : String) (now : Nat)
    (msg : String)
    (hmiss : ∀ cached, findEntry store sid = some cached → isSessionValid cached now = false) :
    (getOrCreateSandbox store sid now (.fail msg)).result
        = Except.error ("Failed to create E2B sandbox: " ++ msg) ∧
    (getOrCreateSandbox store sid now (.fail msg)).store = store := by
  cases hf : findEntry store sid with
  | some cached =>
      have hv := hmiss cached hf
      simp [getOrCreateSandbox, hf, hv, createNewSandbox]
  | none => simp [getOrCreateSandbox, hf, createNewSandbox]

/-- Witness for C6: a creation failure for a fresh session id surfaces as
the wrapped error and leaves the empty store empty. -/
theorem getOrCreateSandbox_createFail_witness :
    (getOrCreateSandbox [] "s" 0 (.fail "quota exceeded")).result
        = Except.error "Failed to create E2B sandbox: quota exceeded" ∧
    (getOrCreateSandbox [] "s" 0 (.fail "quota exceeded")).store = [] := by
  have h := getOrCreateSandbox_createFail [] "s" 0 "quota exceeded"
    (by intro c hc; simp [findEntry] at hc)
  exact ⟨h.1, h.2⟩

/-- C5: terminateSandbox never errors and is idempotent: with no entry it is
a no-op; with an entry it requests the kill and removes the entry whether
the kill succeeds or throws; and a repeated call on the same session is
always a no-op. -/
theorem terminateSandbox_idempotent (store : Store) (sid : String) (k1 k2 : Bool) :
    (findEntry store sid = none →
      terminateSandbox store sid k1 = { store := store, killed := [] }) ∧
    (∀ e, findEntry store sid = some e →
      terminateSandbox store sid k1
        = { store := eraseEntry store sid, killed := [e.sandboxId] }) ∧
    terminateSandbox (terminateSandbox store sid k1).store sid k2
      = { store := (terminateSandbox store sid k1).store, killed := [] } := by
  refine ⟨?_, ?_, ?_⟩
  · intro hf
    cases k1 <;> simp [terminateSandbox, hf]
  · intro e hf
    cases k1 <;> simp [terminateSandbox, hf]
  · cases hf : findEntry store sid with
    | none =>
        have h1 : (terminateSandbox store sid k1).store = store := by
          cases k1 <;> simp [terminateSandbox, hf]
        rw [h1]
        cases k2 <;> simp [terminateSandbox, hf]
    | some e =>
        have h1 : (terminateSandbox store sid k1).store = eraseEntry store sid := by
          cases k1 <;> simp [terminateSandbox, hf]
        have h2 : findEntry (eraseEntry store sid) sid = none := by
          rw [findEntry_eraseEntry]
          simp
        rw [h1]
        cases k2 <;> simp [terminateSandbox, h2]

/-- Witness for C5: terminating a present session removes it whether or not
the kill throws, a second terminate is a no-op, and terminating an absent
session is a no-op. -/
theorem terminateSandbox_idempotent_witness :
    (terminateSandbox [("s", mkEntry 4 0 0 2)] "s" false)
      = { store := [], killed := [4] } ∧
    (terminateSandbox [] "absent" true) = { store := [], killed := [] } := by
  have h1 := (terminateSandbox_idempotent [("s", mkEntry 4 0 0 2)]
    "s" false true).2.1 (mkEntry 4 0 0 2) rfl
  have h2 := (terminateSandbox_idempotent [] "absent" true true).1 rfl
  constructor
  · rw [h1]
    rfl
  · exact h2

/-- C3 fails on the code: when a call replaces a stale entry, the old
sandbox leaves the store with no release requested.  At this concrete
input the entry holding sandbox 1 (idle 31 minutes, past the 30-minute
idle timeout) is replaced by a fresh entry for sandbox 2, and the call
requests no kill at all. -/
theorem staleReplacement_noRelease_cex :
    findEntry [("s", mkEntry 1 0 0 1)] "s" = some (mkEntry 1 0 0 1) ∧
    findEntry (getOrCreateSandbox [("s", mkEntry 1 0 0 1)] "s" 1860000
        (.ok 2)).store "s"
      = some (mkEntry 2 1860000 1860000 1) ∧
    (getOrCreateSandbox [("s", mkEntry 1 0 0 1)] "s" 1860000 (.ok 2)).killed = [] := by
  refine ⟨rfl, ?_, rfl⟩
  rfl

/-- C3 amended: entries removed by terminateSandbox (called directly or by
the cleanup sweep) always have their remote release requested, whether or
not the release succeeds; but getOrCreateSandbox never requests a release,
so the replacement of a stale entry leaks the old remote sandbox. -/
theorem release_discipline (store : Store) (sid : String) (killOk : Bool)
    (now : Nat) (create : CreateOutcome) :
    (∀ e, findEntry store sid = some e →
      (terminateSandbox store sid killOk).killed = [e.sandboxId] ∧
      findEntry (terminateSandbox store sid killOk).store sid = none) ∧
    (getOrCreateSandbox store sid now create).killed = [] := by
  constructor
  · intro e hf
    have h2 : findEntry (eraseEntry store sid) sid = none := by
      rw [findEntry_eraseEntry]
      simp
    cases killOk <;> simp [terminateSandbox, hf, h2]
  · cases hf : findEntry store sid with
    | some cached =>
        by_cases hv : isSessionValid cached now
        · simp [getOrCreateSandbox, hf, hv]
        · cases create <;> simp [getOrCreateSandbox, hf, hv, createNewSandbox]
    | none => cases create <;> simp [getOrCreateSandbox, hf, createNewSandbox]

/-- Witness for C3 amended: a present entry is released and removed by
terminateSandbox even when the kill throws. -/
theorem release_discipline_witness :
    (terminateSandbox [("s", mkEntry 9 0 0 1)] "s" false).killed = [9] ∧
    findEntry (terminateSandbox [("s", mkEntry 9 0 0 1)] "s" false).store "s"
      = none := by
  exact (release_discipline [("s", mkEntry 9 0 0 1)] "s" false 0 (.ok 1)).1
    (mkEntry 9 0 0 1) rfl

/-- C7: getCacheStats reports the entry count, the number of entries
passing the expiry policy at call time, and the executionCount sum over all
entries including expired ones; consequently an eviction-free run of N
successful executions over M distinct session ids, all still valid at query
time, yields totalExecutions = N and activeSessions = M. -/
theorem getCacheStats_spec :
    (∀ (store : Store) (now : Nat),
      (getCacheStats store now).totalSessions = store.length ∧
      (getCacheStats store now).activeSessions
        = (store.filter (fun p => isSessionValid p.2 now)).length ∧
      (getCacheStats store now).totalExecutions = sumExec store) ∧
    (∀ (evs : List ExecEvent) (T : Nat),
      noEvictions [] evs = true →
      (∀ p ∈ runSteps ([] : Store) evs, isSessionValid p.2 T = true) →
      (getCacheStats (runSteps [] evs) T).totalExecutions = evs.length ∧
      (getCacheStats (runSteps [] evs) T).activeSessions
        = ((evs.map (fun e => e.sid)).dedup).length) := by
  constructor
  · intro store now
    rw [getCacheStats_eq]
    exact ⟨rfl, rfl, rfl⟩
  · intro evs T hev hval
    have hchar := getCacheStats_eq (runSteps [] evs) T
    constructor
    · simp only [hchar]
      simpa [sumExec] using sumExec_runSteps evs [] (by simp [keysNodup, keys]) hev
    · simp only [hchar]
      have hfil : (runSteps ([] : Store) evs).filter (fun p => isSessionValid p.2 T)
          = runSteps [] evs := List.filter_eq_self.mpr hval
      rw [hfil]
      exact keys_runSteps_length evs

/-- Witness for C7: three eviction-free executions over the two sessions a
and b give totalExecutions 3 and activeSessions 2. -/
theorem getCacheStats_spec_witness :
    (getCacheStats (runSteps []
        [⟨"a", 0, 1⟩, ⟨"b", 5, 2⟩, ⟨"a", 10, 3⟩]) 20).totalExecutions = 3 ∧
    (getCacheStats (runSteps []
        [⟨"a", 0, 1⟩, ⟨"b", 5, 2⟩, ⟨"a", 10, 3⟩]) 20).activeSessions = 2 := by
  have h := (getCacheStats_spec).2 [⟨"a", 0, 1⟩, ⟨"b", 5, 2⟩, ⟨"a", 10, 3⟩] 20
    (by decide) (by decide)
  refine ⟨h.1, ?_⟩
  rw [h.2]
  decide

/-- C4 fails on the code (a latent defect the spec itself flags): the
get-or-create path is not guarded, so two interleaved calls for the same
fresh session id can both observe a cache miss before either inserts, and
then both invoke Sandbox.create.  The first conjunct ties the phase
decomposition to getOrCreateSandbox: whenever the check-cache phase reports
a miss, the full call is exactly Sandbox.create followed by the insert
phase.  The second conjunct executes the interleaving check-A, check-B,
insert-A (sandbox 1), insert-B (sandbox 2) from the empty store: both
checks miss, so two sandboxes are created, and the final store holds only
sandbox 2 - sandbox 1 is orphaned. -/
theorem concurrent_create_duplicates :
    (∀ (store : Store) (sid : String) (now : Nat) (id : Nat),
      (resolveCheckCache store sid now).1 = none →
      getOrCreateSandbox store sid now (.ok id)
        = { result := Except.ok id,
            store := resolveInsert (resolveCheckCache store sid now).2 sid now id,
            createRequested := true, killed := [] }) ∧
    ((resolveCheckCache ([] : Store) "fresh" 0).1 = none ∧
     (resolveCheckCache (resolveCheckCache ([] : Store) "fresh" 0).2 "fresh" 0).1 = none ∧
     findEntry (resolveInsert (resolveInsert
        (resolveCheckCache (resolveCheckCache ([] : Store) "fresh" 0).2 "fresh" 0).2
        "fresh" 0 1) "fresh" 0 2) "fresh"
       = some (mkEntry 2 0 0 1)) := by
  constructor
  · intro store sid now id hmiss
    unfold resolveCheckCache at hmiss ⊢
    cases hf : findEntry store sid with
    | none => simp [getOrCreateSandbox, hf, createNewSandbox, resolveInsert]
    | some c =>
        rw [hf] at hmiss
        by_cases hv : isSessionValid c now
        · simp [hv] at hmiss
        · simp [getOrCreateSandbox, hf, hv, createNewSandbox, resolveInsert]
  · exact ⟨rfl, rfl, rfl⟩

/-- Witness for C4: the phase decomposition applied to a concrete miss. -/
theorem concurrent_create_duplicates_witness :
    getOrCreateSandbox [] "x" 0 (.ok 5)
      = { result := Except.ok 5,
          store := resolveInsert (resolveCheckCache ([] : Store) "x" 0).2 "x" 0 5,
          createRequested := true, killed := [] } :=
  (concurrent_create_duplicates).1 [] "x" 0 5 rfl

end E2B
